import Mathlib

/-!
# Shallow embedding of `fdbserver/LogSystemConfig.h`

This file embeds the data model and the comparison / enumeration algorithms of
`LogSystemConfig.h` (FoundationDB's transaction-log configuration model) into
Lean 4, and proves the specification claims about them.

Modelling choices:
* `UID`, `NetworkAddress`, `Version`, `LocalityData`, endpoint tokens and the
  replication-policy `info()` descriptor are opaque values consumed only
  through equality (and, for `uniquify`, through the total order on
  `UID × NetworkAddress`); they are modelled as `Nat`/`Int`.
* `IRepPolicyRef` is a possibly-null reference whose only consumed behaviour
  is `info()`; it is modelled as `Option Nat` (`none` = null reference,
  `some d` = a reference whose `info()` descriptor is `d`).
* A `TLogInterface` exposes exactly the fields this header consumes:
  `id()`, the `commit` endpoint token, `getSharedTLogID()` and `address()`.
* C++ early-return-`false` sequences are translated to boolean conjunctions
  of the negated guards; indexed `for` loops over `std::vector` become
  structural recursion over `List`.
-/

/-- Model of `UID` (a fixed-width, totally ordered, hashable identifier). -/
abbrev UID := Nat

/-- Model of `NetworkAddress` (an opaque comparable value). -/
abbrev NetworkAddress := Nat

/-- Model of `Version` (`int64_t`). Only equality is consumed here. -/
abbrev Version := Int

/-- Model of `LocalityData` (opaque; never consulted by the comparisons). -/
abbrev LocalityData := Nat

/-- The fields of `TLogInterface` consumed by `LogSystemConfig.h`:
`id()`, `commit.getEndpoint().token`, `getSharedTLogID()`, `address()`. -/
structure TLogInterface where
  uid : UID
  commitToken : Nat
  sharedTLogID : UID
  address : NetworkAddress
deriving DecidableEq, Inhabited

/-- `OptionalInterface<TLogInterface>`: a tlog known by `id()` whose live
interface may or may not presently be known (source lines 29–56). -/
structure OptionalInterface where
  ident : UID
  iface : Option TLogInterface
deriving DecidableEq, Inhabited

/-- `UID id() const { return ident; }` -/
def OptionalInterface.id (o : OptionalInterface) : UID := o.ident

/-- `bool present() const { return iface.present(); }` -/
def OptionalInterface.present (o : OptionalInterface) : Bool := o.iface.isSome

/-- The one local error kind of this core: `interf()` requested on an
unresolved reference (C++ `iface.get()` on an empty `Optional` fails). -/
inductive FdbError where
  | notResolved
deriving DecidableEq

/-- `Interface const& interf() const { return iface.get(); }` — total when
`present()`, fails with `notResolved` otherwise. -/
def OptionalInterface.interf (o : OptionalInterface) : Except FdbError TLogInterface :=
  match o.iface with
  | some i => Except.ok i
  | none => Except.error FdbError.notResolved

/-- Constructor `explicit OptionalInterface( UID id ) : ident(id) {}`. -/
def OptionalInterface.ofId (u : UID) : OptionalInterface := ⟨u, none⟩

/-- Constructor `explicit OptionalInterface( Interface const& i ) : ident(i.id()), iface(i) {}`. -/
def OptionalInterface.ofInterface (i : TLogInterface) : OptionalInterface := ⟨i.uid, some i⟩

/-- Default constructor `OptionalInterface() {}` (`UID` zero-initialised, `iface` empty). -/
def OptionalInterface.mkDefault : OptionalInterface := ⟨0, none⟩

/-- The wire content read back by `OptionalInterface::serialize`: the optional
interface, and the identifier field that is only consulted when the interface
is absent. -/
structure OptionalInterfaceWire where
  iface : Option TLogInterface
  ident : UID
deriving DecidableEq

/-- The read direction of `OptionalInterface::serialize` (source lines 46–51):
`ar & iface; if (!iface.present()) ar & ident; else ident = iface.get().id();` -/
def OptionalInterface.deserialize (w : OptionalInterfaceWire) : OptionalInterface :=
  match w.iface with
  | some i => ⟨i.uid, some i⟩
  | none => ⟨w.ident, none⟩

/-- The commit-endpoint token of a resolved reference
(`interf().commit.getEndpoint().token`); the default value is never consulted
because every use is guarded by `present()`. -/
def OptionalInterface.commitTokenD (o : OptionalInterface) : Nat :=
  match o.iface with
  | some i => i.commitToken
  | none => 0

/-- The per-element comparison of `TLogSet::operator==`'s loop (source line 84):
equal `id()`, equal `present()`, and — when present — equal commit endpoint
token; written as the negation of the early-return-`false` condition. -/
def OptionalInterface.entryEq (a b : OptionalInterface) : Bool :=
  !(a.id != b.id || a.present != b.present ||
    (a.present && a.commitTokenD != b.commitTokenD))

/-- Pointwise comparison of two lists by `f`, false on length mismatch; this is
the shape of every index-aligned `for` loop in the source (each such loop runs
under a length-equality guard). -/
def pointwiseB {α : Type} (f : α → α → Bool) : List α → List α → Bool
  | [], [] => true
  | a :: as, b :: bs => f a b && pointwiseB f as bs
  | _, _ => false

/-- `enum { HasBestPolicyNone = 0, HasBestPolicyId = 1 };` -/
def HasBestPolicyNone : Int := 0

def HasBestPolicyId : Int := 1

/-- The policy guard shared by `TLogSet::operator==` and `TLogSet::isEqualIds`
(source lines 80, 95), written as the negation of the early-return-`false`
condition: `(p && !rp) || (!p && rp) || (p && p->info() != rp->info())`. -/
def policyMatch (p q : Option Nat) : Bool :=
  !((p.isSome && !q.isSome) || (!p.isSome && q.isSome) ||
    (p.isSome && p.getD 0 != q.getD 0))

/-- `struct TLogSet` (source lines 60–110). -/
structure TLogSet where
  tLogs : List OptionalInterface
  logRouters : List OptionalInterface
  tLogWriteAntiQuorum : Int
  tLogReplicationFactor : Int
  tLogLocalities : List LocalityData
  tLogPolicy : Option Nat
  locality : Int
  isLocal : Bool
  hasBestPolicy : Int
deriving DecidableEq, Inhabited

/-- Default constructor `TLogSet()` (source line 70). -/
def TLogSet.mkDefault : TLogSet :=
  { tLogs := [], logRouters := [], tLogWriteAntiQuorum := 0, tLogReplicationFactor := 0,
    tLogLocalities := [], tLogPolicy := none, locality := -99, isLocal := true,
    hasBestPolicy := HasBestPolicyId }

/-- `TLogSet::operator==` (source lines 76–89): scalar-field and size guard,
policy guard, then the per-index loop over `tLogs`; `logRouters` and
`tLogLocalities` are never consulted. -/
def TLogSet.beq (a b : TLogSet) : Bool :=
  !(a.tLogWriteAntiQuorum != b.tLogWriteAntiQuorum ||
    a.tLogReplicationFactor != b.tLogReplicationFactor ||
    a.isLocal != b.isLocal || a.hasBestPolicy != b.hasBestPolicy ||
    a.tLogs.length != b.tLogs.length || a.locality != b.locality) &&
  policyMatch a.tLogPolicy b.tLogPolicy &&
  pointwiseB OptionalInterface.entryEq a.tLogs b.tLogs

/-- `TLogSet::isEqualIds` (source lines 91–104): same guards as `operator==`,
but the per-index loop compares `id()` only. -/
def TLogSet.isEqualIds (a r : TLogSet) : Bool :=
  !(a.tLogWriteAntiQuorum != r.tLogWriteAntiQuorum ||
    a.tLogReplicationFactor != r.tLogReplicationFactor ||
    a.isLocal != r.isLocal || a.hasBestPolicy != r.hasBestPolicy ||
    a.tLogs.length != r.tLogs.length || a.locality != r.locality) &&
  policyMatch a.tLogPolicy r.tLogPolicy &&
  pointwiseB (fun x y => x.id == y.id) a.tLogs r.tLogs

/-- `struct OldTLogConf` (source lines 112–142). -/
structure OldTLogConf where
  tLogs : List TLogSet
  epochEnd : Version
deriving DecidableEq, Inhabited

/-- Default constructor `OldTLogConf() : epochEnd(0)`. -/
def OldTLogConf.mkDefault : OldTLogConf := ⟨[], 0⟩

/-- `OldTLogConf::operator==` (source lines 122–124): element-wise `TLogSet`
structural equality on `tLogs` (via `std::vector::operator==`) and equal
`epochEnd`. -/
def OldTLogConf.beq (a b : OldTLogConf) : Bool :=
  pointwiseB TLogSet.beq a.tLogs b.tLogs && a.epochEnd == b.epochEnd

/-- `OldTLogConf::isEqualIds` (source lines 126–136): size guard then the
per-index loop of `TLogSet::isEqualIds`. -/
def OldTLogConf.isEqualIds (a r : OldTLogConf) : Bool :=
  !(a.tLogs.length != r.tLogs.length) &&
  pointwiseB TLogSet.isEqualIds a.tLogs r.tLogs

/-- `struct LogSystemConfig` (source lines 144–229). -/
structure LogSystemConfig where
  logSystemType : Int
  tLogs : List TLogSet
  oldTLogs : List OldTLogConf
  expectedLogSets : Int
  minRouters : Int
deriving DecidableEq, Inhabited

/-- Default constructor `LogSystemConfig() : logSystemType(0), minRouters(0), expectedLogSets(0)`. -/
def LogSystemConfig.mkDefault : LogSystemConfig := ⟨0, [], [], 0, 0⟩

/-- The inner loop body of `allPresentLogs` over one group's `tLogs`
(source lines 160–164): push `interf()` of every `present()` entry, in order. -/
def presentLogsOf : List OptionalInterface → List TLogInterface
  | [] => []
  | t :: ts =>
    match t.iface with
    | some i => i :: presentLogsOf ts
    | none => presentLogsOf ts

/-- The outer loop of `allPresentLogs` over the live groups (source lines 159–165). -/
def presentLogsOfSets : List TLogSet → List TLogInterface
  | [] => []
  | s :: ss => presentLogsOf s.tLogs ++ presentLogsOfSets ss

/-- `LogSystemConfig::allPresentLogs` (source lines 157–167). -/
def LogSystemConfig.allPresentLogs (c : LogSystemConfig) : List TLogInterface :=
  presentLogsOfSets c.tLogs

/-- The inner loop body of `allSharedLogs` over one group's `tLogs`
(source lines 173–176, 181–184): push
`(interf().getSharedTLogID(), interf().address())` of every `present()` entry. -/
def sharedPairsOf : List OptionalInterface → List (UID × NetworkAddress)
  | [] => []
  | t :: ts =>
    match t.iface with
    | some i => (i.sharedTLogID, i.address) :: sharedPairsOf ts
    | none => sharedPairsOf ts

/-- The loop of `allSharedLogs` over the live groups (source lines 172–177). -/
def sharedPairsOfSets : List TLogSet → List (UID × NetworkAddress)
  | [] => []
  | s :: ss => sharedPairsOf s.tLogs ++ sharedPairsOfSets ss

/-- The loop of `allSharedLogs` over historical generations (source lines 179–186). -/
def sharedPairsOfOlds : List OldTLogConf → List (UID × NetworkAddress)
  | [] => []
  | o :: os => sharedPairsOfSets o.tLogs ++ sharedPairsOfOlds os

/-- The `results` vector of `allSharedLogs` as collected before `uniquify`:
live generation's pairs, then every historical generation's pairs. -/
def LogSystemConfig.collectSharedLogs (c : LogSystemConfig) : List (UID × NetworkAddress) :=
  sharedPairsOfSets c.tLogs ++ sharedPairsOfOlds c.oldTLogs

/-- The total order used by `std::sort` inside `uniquify`: lexicographic
`operator<` on `std::pair<UID, NetworkAddress>`. -/
def pairLe (x y : UID × NetworkAddress) : Prop :=
  x.1 < y.1 ∨ (x.1 = y.1 ∧ x.2 ≤ y.2)

instance : DecidableRel pairLe := fun x y =>
  inferInstanceAs (Decidable (x.1 < y.1 ∨ (x.1 = y.1 ∧ x.2 ≤ y.2)))

instance : IsTotal (UID × NetworkAddress) pairLe :=
  ⟨fun x y => by
    rcases Nat.lt_trichotomy x.1 y.1 with h | h | h
    · exact Or.inl (Or.inl h)
    · rcases Nat.le_total x.2 y.2 with h2 | h2
      · exact Or.inl (Or.inr ⟨h, h2⟩)
      · exact Or.inr (Or.inr ⟨h.symm, h2⟩)
    · exact Or.inr (Or.inl h)⟩

instance : IsTrans (UID × NetworkAddress) pairLe :=
  ⟨fun x y z hxy hyz => by
    rcases hxy with h1 | ⟨e1, l1⟩
    · rcases hyz with h2 | ⟨e2, _⟩
      · exact Or.inl (h1.trans h2)
      · exact Or.inl (e2 ▸ h1)
    · rcases hyz with h2 | ⟨e2, l2⟩
      · exact Or.inl (e1 ▸ h2)
      · exact Or.inr ⟨e1.trans e2, l1.trans l2⟩⟩

/-- The adjacent-duplicate removal performed by `std::unique` (exact pair
equality) inside `uniquify`. -/
def dedupAdj : List (UID × NetworkAddress) → List (UID × NetworkAddress)
  | [] => []
  | [a] => [a]
  | a :: b :: rest =>
    if a = b then dedupAdj (b :: rest) else a :: dedupAdj (b :: rest)

/-- `uniquify(results)`: `std::sort` then `std::unique`-erase (Flow's
`uniquify` template); any comparison sort agrees with `insertionSort` here
because `pairLe` is total and antisymmetric. -/
def uniquify (l : List (UID × NetworkAddress)) : List (UID × NetworkAddress) :=
  dedupAdj (List.insertionSort pairLe l)

/-- `LogSystemConfig::allSharedLogs` (source lines 169–191): collect the
`(getSharedTLogID(), address())` pair of every present tlog across the live
and historical generations, then `uniquify`. -/
def LogSystemConfig.allSharedLogs (c : LogSystemConfig) : List (UID × NetworkAddress) :=
  uniquify c.collectSharedLogs

/-- The condition checked by the `ASSERT_WE_THINK` on source line 189:
`std::unique(begin, end, first-components-equal) == end`, i.e. no two adjacent
entries of the returned vector share a `UID`. -/
def noAdjDupFirst : List (UID × NetworkAddress) → Bool
  | [] => true
  | [_] => true
  | a :: b :: rest => (a.1 != b.1) && noAdjDupFirst (b :: rest)

/-- Whether `allSharedLogs`'s topology-consistency assertion passes. -/
def LogSystemConfig.sharedLogsAssertOk (c : LogSystemConfig) : Bool :=
  noAdjDupFirst c.allSharedLogs

/-- `LogSystemConfig::operator==`, i.e. `isEqual` (source lines 193–197). -/
def LogSystemConfig.isEqual (a r : LogSystemConfig) : Bool :=
  a.logSystemType == r.logSystemType &&
  pointwiseB TLogSet.beq a.tLogs r.tLogs &&
  pointwiseB OldTLogConf.beq a.oldTLogs r.oldTLogs &&
  a.minRouters == r.minRouters && a.expectedLogSets == r.expectedLogSets

/-- `LogSystemConfig::isEqualIds` (source lines 199–208): the double loop with
early return `true` — `∃ i ∈ r.tLogs, ∃ j ∈ this.tLogs, i.isEqualIds(j)`. -/
def LogSystemConfig.isEqualIds (a r : LogSystemConfig) : Bool :=
  r.tLogs.any fun i => a.tLogs.any fun j => i.isEqualIds j

/-- `LogSystemConfig::isNextGenerationOf` (source lines 210–223): false when
`oldTLogs` is empty, else the double loop over `r.tLogs` and
`oldTLogs[0].tLogs`. -/
def LogSystemConfig.isNextGenerationOf (a r : LogSystemConfig) : Bool :=
  match a.oldTLogs with
  | [] => false
  | o :: _ => r.tLogs.any fun i => o.tLogs.any fun j => i.isEqualIds j

/-! ## Concrete sample values (used to instantiate the theorems) -/

/-- A sample resolved tlog interface. -/
def sampleIface : TLogInterface := ⟨1, 10, 7, 1⟩

/-- A second resolved interface on the same shared log as `sampleIface` but at
a different address. -/
def sampleIfaceB : TLogInterface := ⟨2, 20, 7, 2⟩

/-- A replication group whose single server reference is resolved. -/
def sampleResolvedSet : TLogSet :=
  { TLogSet.mkDefault with tLogs := [OptionalInterface.ofInterface sampleIface] }

/-- The same group except that the single server reference is unresolved,
with the same identifier. -/
def sampleUnresolvedSet : TLogSet :=
  { TLogSet.mkDefault with tLogs := [OptionalInterface.ofId 1] }

/-- A configuration whose live generation holds one group with two resolved
servers that share a shared-log identity but differ in address. -/
def sampleSharedConfig : LogSystemConfig :=
  { LogSystemConfig.mkDefault with
    tLogs := [{ TLogSet.mkDefault with
      tLogs := [OptionalInterface.ofInterface sampleIface,
                OptionalInterface.ofInterface sampleIfaceB] }] }

/-- A configuration whose live generation holds one group with one resolved
and one unresolved server. -/
def samplePresentConfig : LogSystemConfig :=
  { LogSystemConfig.mkDefault with
    tLogs := [{ TLogSet.mkDefault with
      tLogs := [OptionalInterface.ofId 5,
                OptionalInterface.ofInterface sampleIface] }] }

/-- A wire record carrying a decoded live value together with a conflicting
separately-encoded identifier. -/
def sampleWire : OptionalInterfaceWire := ⟨some sampleIface, 99⟩

/-! ## Characterisation lemmas -/

theorem pointwiseB_iff {α : Type} (f : α → α → Bool) :
    ∀ as bs : List α, pointwiseB f as bs = true ↔
      List.Forall₂ (fun a b => f a b = true) as bs
  | [], [] => by simp [pointwiseB]
  | [], _ :: _ => by simp [pointwiseB]
  | _ :: _, [] => by simp [pointwiseB]
  | a :: as, b :: bs => by
    simp [pointwiseB, pointwiseB_iff f as bs]

theorem pointwiseB_refl {α : Type} (f : α → α → Bool) (hf : ∀ a, f a a = true) :
    ∀ l : List α, pointwiseB f l l = true
  | [] => rfl
  | a :: as => by simp [pointwiseB, hf a, pointwiseB_refl f hf as]

theorem pointwiseB_symm {α : Type} (f : α → α → Bool)
    (hf : ∀ a b, f a b = true → f b a = true) :
    ∀ l1 l2 : List α, pointwiseB f l1 l2 = true → pointwiseB f l2 l1 = true
  | [], [] => fun h => h
  | [], _ :: _ => fun h => by simp [pointwiseB] at h
  | _ :: _, [] => fun h => by simp [pointwiseB] at h
  | a :: as, b :: bs => fun h => by
    simp only [pointwiseB, Bool.and_eq_true] at h ⊢
    exact ⟨hf a b h.1, pointwiseB_symm f hf as bs h.2⟩

theorem pointwiseB_trans {α : Type} (f : α → α → Bool)
    (hf : ∀ a b c, f a b = true → f b c = true → f a c = true) :
    ∀ l1 l2 l3 : List α, pointwiseB f l1 l2 = true → pointwiseB f l2 l3 = true →
      pointwiseB f l1 l3 = true
  | [], [], _ => fun _ h2 => h2
  | [], _ :: _, _ => fun h1 _ => by simp [pointwiseB] at h1
  | _ :: _, [], _ => fun h1 _ => by simp [pointwiseB] at h1
  | _ :: _, _ :: _, [] => fun _ h2 => by simp [pointwiseB] at h2
  | a :: as, b :: bs, c :: cs => fun h1 h2 => by
    simp only [pointwiseB, Bool.and_eq_true] at h1 h2 ⊢
    exact ⟨hf a b c h1.1 h2.1, pointwiseB_trans f hf as bs cs h1.2 h2.2⟩

theorem pointwiseB_imp {α : Type} (f g : α → α → Bool)
    (hfg : ∀ a b, f a b = true → g a b = true) :
    ∀ l1 l2 : List α, pointwiseB f l1 l2 = true → pointwiseB g l1 l2 = true
  | [], [] => fun h => h
  | [], _ :: _ => fun h => by simp [pointwiseB] at h
  | _ :: _, [] => fun h => by simp [pointwiseB] at h
  | a :: as, b :: bs => fun h => by
    simp only [pointwiseB, Bool.and_eq_true] at h ⊢
    exact ⟨hfg a b h.1, pointwiseB_imp f g hfg as bs h.2⟩

theorem OptionalInterface.entryEq_iff (a b : OptionalInterface) :
    a.entryEq b = true ↔
      a.ident = b.ident ∧ a.present = b.present ∧
        (a.present = true → a.commitTokenD = b.commitTokenD) := by
  cases hp : a.present <;>
    simp [OptionalInterface.entryEq, OptionalInterface.id, hp] <;> tauto

theorem policyMatch_iff (p q : Option Nat) : policyMatch p q = true ↔ p = q := by
  cases p <;> cases q <;> simp [policyMatch]

theorem tlogset_beq_iff (a b : TLogSet) :
    a.beq b = true ↔
      (a.tLogWriteAntiQuorum = b.tLogWriteAntiQuorum ∧
       a.tLogReplicationFactor = b.tLogReplicationFactor ∧
       a.isLocal = b.isLocal ∧ a.hasBestPolicy = b.hasBestPolicy ∧
       a.tLogs.length = b.tLogs.length ∧ a.locality = b.locality ∧
       a.tLogPolicy = b.tLogPolicy ∧
       pointwiseB OptionalInterface.entryEq a.tLogs b.tLogs = true) := by
  simp [TLogSet.beq, policyMatch_iff]
  tauto

theorem TLogSet.isEqualIds_iff (a b : TLogSet) :
    a.isEqualIds b = true ↔
      (a.tLogWriteAntiQuorum = b.tLogWriteAntiQuorum ∧
       a.tLogReplicationFactor = b.tLogReplicationFactor ∧
       a.isLocal = b.isLocal ∧ a.hasBestPolicy = b.hasBestPolicy ∧
       a.tLogs.length = b.tLogs.length ∧ a.locality = b.locality ∧
       a.tLogPolicy = b.tLogPolicy ∧
       pointwiseB (fun x y => x.id == y.id) a.tLogs b.tLogs = true) := by
  simp [TLogSet.isEqualIds, policyMatch_iff]
  tauto

theorem oldconf_beq_iff (a b : OldTLogConf) :
    a.beq b = true ↔
      pointwiseB TLogSet.beq a.tLogs b.tLogs = true ∧ a.epochEnd = b.epochEnd := by
  simp [OldTLogConf.beq]

theorem LogSystemConfig.isEqual_iff (a b : LogSystemConfig) :
    a.isEqual b = true ↔
      a.logSystemType = b.logSystemType ∧
      pointwiseB TLogSet.beq a.tLogs b.tLogs = true ∧
      pointwiseB OldTLogConf.beq a.oldTLogs b.oldTLogs = true ∧
      a.minRouters = b.minRouters ∧ a.expectedLogSets = b.expectedLogSets := by
  simp [LogSystemConfig.isEqual]
  tauto

/-! ## Equivalence properties of the structural comparisons -/

theorem OptionalInterface.entryEq_refl (a : OptionalInterface) : a.entryEq a = true := by
  simp [OptionalInterface.entryEq_iff]

theorem OptionalInterface.entryEq_symm (a b : OptionalInterface)
    (h : a.entryEq b = true) : b.entryEq a = true := by
  rw [OptionalInterface.entryEq_iff] at h ⊢
  obtain ⟨h1, h2, h3⟩ := h
  exact ⟨h1.symm, h2.symm, fun hb => (h3 (h2.trans hb)).symm⟩

theorem OptionalInterface.entryEq_trans (a b c : OptionalInterface)
    (h1 : a.entryEq b = true) (h2 : b.entryEq c = true) : a.entryEq c = true := by
  rw [OptionalInterface.entryEq_iff] at h1 h2 ⊢
  obtain ⟨i1, p1, t1⟩ := h1
  obtain ⟨i2, p2, t2⟩ := h2
  exact ⟨i1.trans i2, p1.trans p2, fun ha => (t1 ha).trans (t2 (p1.symm.trans ha))⟩

theorem tlogset_beq_refl (a : TLogSet) : a.beq a = true :=
  (tlogset_beq_iff a a).mpr
    ⟨rfl, rfl, rfl, rfl, rfl, rfl, rfl,
      pointwiseB_refl _ OptionalInterface.entryEq_refl a.tLogs⟩

theorem tlogset_beq_symm (a b : TLogSet) (h : a.beq b = true) : b.beq a = true := by
  rw [tlogset_beq_iff] at h ⊢
  obtain ⟨h1, h2, h3, h4, h5, h6, h7, h8⟩ := h
  exact ⟨h1.symm, h2.symm, h3.symm, h4.symm, h5.symm, h6.symm, h7.symm,
    pointwiseB_symm _ OptionalInterface.entryEq_symm _ _ h8⟩

theorem tlogset_beq_trans (a b c : TLogSet)
    (h1 : a.beq b = true) (h2 : b.beq c = true) : a.beq c = true := by
  rw [tlogset_beq_iff] at h1 h2 ⊢
  obtain ⟨a1, a2, a3, a4, a5, a6, a7, a8⟩ := h1
  obtain ⟨b1, b2, b3, b4, b5, b6, b7, b8⟩ := h2
  exact ⟨a1.trans b1, a2.trans b2, a3.trans b3, a4.trans b4, a5.trans b5,
    a6.trans b6, a7.trans b7,
    pointwiseB_trans _ OptionalInterface.entryEq_trans _ _ _ a8 b8⟩

theorem oldconf_beq_refl (a : OldTLogConf) : a.beq a = true :=
  (oldconf_beq_iff a a).mpr ⟨pointwiseB_refl _ tlogset_beq_refl a.tLogs, rfl⟩

theorem oldconf_beq_symm (a b : OldTLogConf) (h : a.beq b = true) : b.beq a = true := by
  rw [oldconf_beq_iff] at h ⊢
  exact ⟨pointwiseB_symm _ tlogset_beq_symm _ _ h.1, h.2.symm⟩

theorem oldconf_beq_trans (a b c : OldTLogConf)
    (h1 : a.beq b = true) (h2 : b.beq c = true) : a.beq c = true := by
  rw [oldconf_beq_iff] at h1 h2 ⊢
  exact ⟨pointwiseB_trans _ tlogset_beq_trans _ _ _ h1.1 h2.1, h1.2.trans h2.2⟩

theorem LogSystemConfig.isEqual_refl (a : LogSystemConfig) : a.isEqual a = true :=
  (LogSystemConfig.isEqual_iff a a).mpr
    ⟨rfl, pointwiseB_refl _ tlogset_beq_refl a.tLogs,
      pointwiseB_refl _ oldconf_beq_refl a.oldTLogs, rfl, rfl⟩

theorem LogSystemConfig.isEqual_symm (a b : LogSystemConfig)
    (h : a.isEqual b = true) : b.isEqual a = true := by
  rw [LogSystemConfig.isEqual_iff] at h ⊢
  obtain ⟨h1, h2, h3, h4, h5⟩ := h
  exact ⟨h1.symm, pointwiseB_symm _ tlogset_beq_symm _ _ h2,
    pointwiseB_symm _ oldconf_beq_symm _ _ h3, h4.symm, h5.symm⟩

theorem LogSystemConfig.isEqual_trans (a b c : LogSystemConfig)
    (h1 : a.isEqual b = true) (h2 : b.isEqual c = true) : a.isEqual c = true := by
  rw [LogSystemConfig.isEqual_iff] at h1 h2 ⊢
  obtain ⟨a1, a2, a3, a4, a5⟩ := h1
  obtain ⟨b1, b2, b3, b4, b5⟩ := h2
  exact ⟨a1.trans b1, pointwiseB_trans _ tlogset_beq_trans _ _ _ a2 b2,
    pointwiseB_trans _ oldconf_beq_trans _ _ _ a3 b3, a4.trans b4, a5.trans b5⟩

/-! ## Claim theorems: structural equality (C4, C5, C6) -/

/-- C4: `TLogSet::operator==` holds iff `writeAntiQuorum`, `replicationFactor`,
`isLocal`, `hasBestPolicy` and `locality` all match, the `tLogs` sequences have
equal length, the policy references agree (both absent, or both present with
equal `info()` descriptor — in this model, equality of the `Option Nat`
references), and index-by-index each server has equal identity, equal
resolution state and — when resolved — equal commit endpoint token; and
`logRouters` and `tLogLocalities` are never consulted, so two groups differing
only in those fields are structurally equal. -/
theorem C4_tlogset_structural_equality :
    (∀ a b : TLogSet, a.beq b = true ↔
      (a.tLogWriteAntiQuorum = b.tLogWriteAntiQuorum ∧
       a.tLogReplicationFactor = b.tLogReplicationFactor ∧
       a.isLocal = b.isLocal ∧ a.hasBestPolicy = b.hasBestPolicy ∧
       a.locality = b.locality ∧ a.tLogs.length = b.tLogs.length ∧
       a.tLogPolicy = b.tLogPolicy ∧
       ∀ (i : Nat) (h1 : i < a.tLogs.length) (h2 : i < b.tLogs.length),
         (a.tLogs.get ⟨i, h1⟩).ident = (b.tLogs.get ⟨i, h2⟩).ident ∧
         (a.tLogs.get ⟨i, h1⟩).present = (b.tLogs.get ⟨i, h2⟩).present ∧
         ((a.tLogs.get ⟨i, h1⟩).present = true →
           (a.tLogs.get ⟨i, h1⟩).commitTokenD = (b.tLogs.get ⟨i, h2⟩).commitTokenD))) ∧
    (∀ (a : TLogSet) (rs : List OptionalInterface) (ls : List LocalityData),
      a.beq { a with logRouters := rs, tLogLocalities := ls } = true) := by
  constructor
  · intro a b
    rw [tlogset_beq_iff, pointwiseB_iff, List.forall₂_iff_get]
    simp only [OptionalInterface.entryEq_iff]
    tauto
  · intro a rs ls
    exact (tlogset_beq_iff a _).mpr
      ⟨rfl, rfl, rfl, rfl, rfl, rfl, rfl,
        pointwiseB_refl _ OptionalInterface.entryEq_refl a.tLogs⟩

/-- Witness for C4 at a concrete input. -/
theorem C4_witness : TLogSet.mkDefault.beq TLogSet.mkDefault = true :=
  (C4_tlogset_structural_equality.1 TLogSet.mkDefault TLogSet.mkDefault).mpr
    ⟨rfl, rfl, rfl, rfl, rfl, rfl, rfl, fun i h1 _ => absurd h1 (Nat.not_lt_zero i)⟩

/-- C5: identity-only equality is a coarsening of structural equality
(`a == b` implies `a.isEqualIds(b)`), and the converse fails: two groups that
agree except that one server reference is resolved in one and unresolved in
the other (same identifier) are `isEqualIds`-equal but not `==`-equal. -/
theorem C5_ids_coarsens_structural :
    (∀ a b : TLogSet, a.beq b = true → a.isEqualIds b = true) ∧
    (∃ a b : TLogSet, a.isEqualIds b = true ∧ a.beq b = false) := by
  constructor
  · intro a b h
    rw [tlogset_beq_iff] at h
    rw [TLogSet.isEqualIds_iff]
    obtain ⟨h1, h2, h3, h4, h5, h6, h7, h8⟩ := h
    refine ⟨h1, h2, h3, h4, h5, h6, h7, ?_⟩
    refine pointwiseB_imp _ _ ?_ _ _ h8
    intro x y hxy
    rw [OptionalInterface.entryEq_iff] at hxy
    simp [OptionalInterface.id, hxy.1]
  · exact ⟨sampleResolvedSet, sampleUnresolvedSet, by decide, by decide⟩

/-- Witness for C5 at a concrete input. -/
theorem C5_witness : sampleResolvedSet.isEqualIds sampleResolvedSet = true :=
  C5_ids_coarsens_structural.1 sampleResolvedSet sampleResolvedSet (by decide)

/-- C6: structural equality is reflexive, symmetric and transitive for the
four entity kinds: the per-reference comparison used on `OptionalInterface`
by `TLogSet::operator==`, `TLogSet::operator==` itself,
`OldTLogConf::operator==`, and `LogSystemConfig::isEqual` (`operator==`). -/
theorem C6_structural_equality_equivalence :
    ((∀ a : OptionalInterface, a.entryEq a = true) ∧
     (∀ a b : OptionalInterface, a.entryEq b = true → b.entryEq a = true) ∧
     (∀ a b c : OptionalInterface,
       a.entryEq b = true → b.entryEq c = true → a.entryEq c = true)) ∧
    ((∀ a : TLogSet, a.beq a = true) ∧
     (∀ a b : TLogSet, a.beq b = true → b.beq a = true) ∧
     (∀ a b c : TLogSet, a.beq b = true → b.beq c = true → a.beq c = true)) ∧
    ((∀ a : OldTLogConf, a.beq a = true) ∧
     (∀ a b : OldTLogConf, a.beq b = true → b.beq a = true) ∧
     (∀ a b c : OldTLogConf, a.beq b = true → b.beq c = true → a.beq c = true)) ∧
    ((∀ a : LogSystemConfig, a.isEqual a = true) ∧
     (∀ a b : LogSystemConfig, a.isEqual b = true → b.isEqual a = true) ∧
     (∀ a b c : LogSystemConfig,
       a.isEqual b = true → b.isEqual c = true → a.isEqual c = true)) :=
  ⟨⟨OptionalInterface.entryEq_refl, OptionalInterface.entryEq_symm,
    OptionalInterface.entryEq_trans⟩,
   ⟨tlogset_beq_refl, tlogset_beq_symm, tlogset_beq_trans⟩,
   ⟨oldconf_beq_refl, oldconf_beq_symm, oldconf_beq_trans⟩,
   ⟨LogSystemConfig.isEqual_refl, LogSystemConfig.isEqual_symm,
    LogSystemConfig.isEqual_trans⟩⟩

/-- Witness for C6 at a concrete input. -/
theorem C6_witness : OldTLogConf.mkDefault.beq OldTLogConf.mkDefault = true :=
  C6_structural_equality_equivalence.2.2.1.2.2 OldTLogConf.mkDefault
    OldTLogConf.mkDefault OldTLogConf.mkDefault (by decide) (by decide)

/-! ## Claim theorems: lineage and identity matching (C1, C2, C10) -/

/-- C1: `A.isNextGenerationOf(r)` is true iff `A.oldTLogs` is non-empty and
some group of `r.tLogs` is `isEqualIds`-equal to some group of
`A.oldTLogs[0].tLogs`; in particular it is false whenever `A.oldTLogs` is
empty, regardless of any group overlap. -/
theorem C1_isNextGenerationOf :
    (∀ A r : LogSystemConfig, A.isNextGenerationOf r = true ↔
      ∃ o, A.oldTLogs.head? = some o ∧
        ∃ g ∈ r.tLogs, ∃ h ∈ o.tLogs, g.isEqualIds h = true) ∧
    (∀ A r : LogSystemConfig, A.oldTLogs = [] → A.isNextGenerationOf r = false) := by
  constructor
  · intro A r
    cases hA : A.oldTLogs with
    | nil => simp [LogSystemConfig.isNextGenerationOf, hA]
    | cons o os => simp [LogSystemConfig.isNextGenerationOf, hA, List.any_eq_true]
  · intro A r h
    simp [LogSystemConfig.isNextGenerationOf, h]

/-- Witness for C1 at a concrete input. -/
theorem C1_witness :
    LogSystemConfig.mkDefault.isNextGenerationOf samplePresentConfig = false :=
  C1_isNextGenerationOf.2 LogSystemConfig.mkDefault samplePresentConfig rfl

/-- C2: `A.isEqualIds(B)` is true iff there exist a group in `B.tLogs` and a
group in `A.tLogs` that are `TLogSet::isEqualIds`-equal — an existential match
over all pairs, not a full-set or positional comparison. -/
theorem C2_isEqualIds_existential :
    ∀ A B : LogSystemConfig, A.isEqualIds B = true ↔
      ∃ g ∈ B.tLogs, ∃ h ∈ A.tLogs, g.isEqualIds h = true := by
  intro A B
  simp [LogSystemConfig.isEqualIds, List.any_eq_true]

/-- C10: `LogSystemConfig::isEqualIds` is not reflexive — it is false whenever
either side's live group list is empty, in particular for the
default-constructed configuration compared with itself; consequently
`isNextGenerationOf` is false whenever `r` has no live groups or
`oldTLogs[0]` has no groups, even when the history is non-empty. -/
theorem C10_isEqualIds_not_reflexive :
    (∀ A B : LogSystemConfig, A.tLogs = [] ∨ B.tLogs = [] → A.isEqualIds B = false) ∧
    (LogSystemConfig.mkDefault.isEqualIds LogSystemConfig.mkDefault = false) ∧
    (∀ A r : LogSystemConfig, r.tLogs = [] → A.isNextGenerationOf r = false) ∧
    (∀ (A r : LogSystemConfig) (o : OldTLogConf) (rest : List OldTLogConf),
      A.oldTLogs = o :: rest → o.tLogs = [] → A.isNextGenerationOf r = false) := by
  refine ⟨?_, by decide, ?_, ?_⟩
  · intro A B h
    rcases h with h | h <;> simp [LogSystemConfig.isEqualIds, h]
  · intro A r h
    cases hA : A.oldTLogs <;> simp [LogSystemConfig.isNextGenerationOf, hA, h]
  · intro A r o rest hA ho
    simp [LogSystemConfig.isNextGenerationOf, hA, ho]

/-- Witness for C10 at a concrete input. -/
theorem C10_witness :
    LogSystemConfig.mkDefault.isEqualIds samplePresentConfig = false :=
  C10_isEqualIds_not_reflexive.1 LogSystemConfig.mkDefault samplePresentConfig
    (Or.inl rfl)

/-! ## Enumeration of present logs (C7) -/

theorem presentLogsOf_eq (ts : List OptionalInterface) :
    presentLogsOf ts = ts.filterMap (fun t => t.iface) := by
  induction ts with
  | nil => rfl
  | cons t ts ih =>
    cases ht : t.iface <;> simp [presentLogsOf, ht, ih, List.filterMap_cons]

theorem presentLogsOfSets_eq (ss : List TLogSet) :
    presentLogsOfSets ss = ss.flatMap (fun s => s.tLogs.filterMap (fun t => t.iface)) := by
  induction ss with
  | nil => rfl
  | cons s ss ih => simp [presentLogsOfSets, presentLogsOf_eq, ih]

theorem mem_presentLogsOfSets {ss : List TLogSet} {x : TLogInterface} :
    x ∈ presentLogsOfSets ss ↔ ∃ s ∈ ss, ∃ t ∈ s.tLogs, t.iface = some x := by
  rw [presentLogsOfSets_eq]
  simp [List.mem_filterMap]

theorem presentLogsOfSets_length (ss : List TLogSet) :
    (presentLogsOfSets ss).length ≤ (ss.map (fun s => s.tLogs.length)).sum := by
  induction ss with
  | nil => simp [presentLogsOfSets]
  | cons s ss ih =>
    have h := List.length_filterMap_le (fun t : OptionalInterface => t.iface) s.tLogs
    simp only [presentLogsOfSets, List.length_append, List.map_cons, List.sum_cons,
      presentLogsOf_eq]
    omega

/-- C7: `allPresentLogs` returns, in live-group order and then server order,
exactly the live interface values of the references whose `present()` is true;
every returned entry comes from a resolved reference, and the result length is
at most the total server count across the live groups. -/
theorem C7_allPresentLogs :
    ∀ c : LogSystemConfig,
      c.allPresentLogs = c.tLogs.flatMap (fun s => s.tLogs.filterMap (fun t => t.iface)) ∧
      (∀ x ∈ c.allPresentLogs, ∃ s ∈ c.tLogs, ∃ t ∈ s.tLogs,
        t.present = true ∧ t.interf = Except.ok x) ∧
      c.allPresentLogs.length ≤ (c.tLogs.map (fun s => s.tLogs.length)).sum := by
  intro c
  refine ⟨presentLogsOfSets_eq c.tLogs, ?_, presentLogsOfSets_length c.tLogs⟩
  intro x hx
  obtain ⟨s, hs, t, ht, hiface⟩ := mem_presentLogsOfSets.mp hx
  exact ⟨s, hs, t, ht, by simp [OptionalInterface.present, hiface],
    by simp [OptionalInterface.interf, hiface]⟩

/-- Witness for C7 at a concrete input. -/
theorem C7_witness :
    ∃ s ∈ samplePresentConfig.tLogs, ∃ t ∈ s.tLogs,
      t.present = true ∧ t.interf = Except.ok sampleIface :=
  (C7_allPresentLogs samplePresentConfig).2.1 sampleIface (by decide)

/-! ## IdentityReference invariant and error model (C8, C9) -/

/-- C8: whenever the live value of an `OptionalInterface` is present, the
stored identifier equals the live value's own identity; the invariant is
established by each constructor and preserved by deserialization, where a
decoded live value's identity overrides any separately-encoded identifier. -/
theorem C8_ident_invariant :
    (∀ (u : UID) (i : TLogInterface),
      (OptionalInterface.ofId u).iface = some i → (OptionalInterface.ofId u).ident = i.uid) ∧
    (∀ (j i : TLogInterface),
      (OptionalInterface.ofInterface j).iface = some i →
        (OptionalInterface.ofInterface j).ident = i.uid) ∧
    (∀ i : TLogInterface,
      OptionalInterface.mkDefault.iface = some i → OptionalInterface.mkDefault.ident = i.uid) ∧
    (∀ (w : OptionalInterfaceWire) (i : TLogInterface),
      (OptionalInterface.deserialize w).iface = some i →
        (OptionalInterface.deserialize w).ident = i.uid) ∧
    (∀ (w : OptionalInterfaceWire) (i : TLogInterface),
      w.iface = some i → (OptionalInterface.deserialize w).ident = i.uid) := by
  refine ⟨?_, ?_, ?_, ?_, ?_⟩
  · intro u i h
    exact absurd h (by simp [OptionalInterface.ofId])
  · intro j i h
    simp only [OptionalInterface.ofInterface, Option.some.injEq] at h
    simp [OptionalInterface.ofInterface, h]
  · intro i h
    exact absurd h (by simp [OptionalInterface.mkDefault])
  · intro w i h
    cases hw : w.iface with
    | none => simp [OptionalInterface.deserialize, hw] at h
    | some j =>
      simp only [OptionalInterface.deserialize, hw, Option.some.injEq] at h
      simp [OptionalInterface.deserialize, hw, h]
  · intro w i h
    simp [OptionalInterface.deserialize, h]

/-- Witness for C8 at a concrete input: the identifier decoded alongside a
live value is overridden by the live value's identity. -/
theorem C8_witness : (OptionalInterface.deserialize sampleWire).ident = sampleIface.uid :=
  C8_ident_invariant.2.2.2.2 sampleWire sampleIface rfl

/-- C9: `id()` always succeeds and returns the stored identifier; `interf()`
fails iff `present()` is false, and `notResolved` is the only error kind the
core raises. -/
theorem C9_interf_error_model :
    (∀ o : OptionalInterface, o.id = o.ident) ∧
    (∀ o : OptionalInterface, (∃ e, o.interf = Except.error e) ↔ o.present = false) ∧
    (∀ (o : OptionalInterface) (e : FdbError),
      o.interf = Except.error e → e = FdbError.notResolved) := by
  refine ⟨fun o => rfl, ?_, ?_⟩
  · intro o
    cases ho : o.iface with
    | none =>
      simp [OptionalInterface.interf, OptionalInterface.present, ho]
      exact ⟨FdbError.notResolved, trivial⟩
    | some i =>
      simp [OptionalInterface.interf, OptionalInterface.present, ho]
  · intro o e _
    cases e
    rfl

/-- Witness for C9 at a concrete input. -/
theorem C9_witness : ∃ e, (OptionalInterface.ofId 3).interf = Except.error e :=
  (C9_interf_error_model.2.1 (OptionalInterface.ofId 3)).mpr rfl

/-! ## allSharedLogs: membership, uniquify and the topology assertion (C3) -/

theorem mem_sharedPairsOf {ts : List OptionalInterface} {p : UID × NetworkAddress} :
    p ∈ sharedPairsOf ts ↔
      ∃ t ∈ ts, ∃ i, t.iface = some i ∧ p = (i.sharedTLogID, i.address) := by
  induction ts with
  | nil => simp [sharedPairsOf]
  | cons t ts ih =>
    cases ht : t.iface <;> simp [sharedPairsOf, ht, ih]

theorem mem_sharedPairsOfSets {ss : List TLogSet} {p : UID × NetworkAddress} :
    p ∈ sharedPairsOfSets ss ↔ ∃ s ∈ ss, p ∈ sharedPairsOf s.tLogs := by
  induction ss with
  | nil => simp [sharedPairsOfSets]
  | cons s ss ih => simp [sharedPairsOfSets, ih]

theorem mem_sharedPairsOfOlds {os : List OldTLogConf} {p : UID × NetworkAddress} :
    p ∈ sharedPairsOfOlds os ↔ ∃ o ∈ os, p ∈ sharedPairsOfSets o.tLogs := by
  induction os with
  | nil => simp [sharedPairsOfOlds]
  | cons o os ih => simp [sharedPairsOfOlds, ih]

theorem mem_dedupAdj : ∀ (l : List (UID × NetworkAddress)) (p : UID × NetworkAddress),
    p ∈ dedupAdj l ↔ p ∈ l
  | [], p => by simp [dedupAdj]
  | [a], p => by simp [dedupAdj]
  | a :: b :: rest, p => by
    by_cases h : a = b
    · simp only [dedupAdj, if_pos h, mem_dedupAdj (b :: rest) p]
      subst h
      simp only [List.mem_cons]
      tauto
    · simp only [dedupAdj, if_neg h, List.mem_cons, mem_dedupAdj (b :: rest) p]

theorem dedupAdj_sublist : ∀ l : List (UID × NetworkAddress), (dedupAdj l).Sublist l
  | [] => List.Sublist.refl _
  | [_] => List.Sublist.refl _
  | a :: b :: rest => by
    by_cases h : a = b
    · simp only [dedupAdj, if_pos h]
      exact (dedupAdj_sublist (b :: rest)).cons a
    · simp only [dedupAdj, if_neg h]
      exact (dedupAdj_sublist (b :: rest)).cons₂ a

theorem dedupAdj_head? : ∀ (l : List (UID × NetworkAddress)) (a : UID × NetworkAddress),
    (dedupAdj (a :: l)).head? = some a
  | [], _ => rfl
  | b :: rest, a => by
    by_cases h : a = b
    · simp only [dedupAdj, if_pos h]
      rw [h]
      exact dedupAdj_head? rest b
    · simp only [dedupAdj, if_neg h, List.head?_cons]

theorem chain'_ne_dedupAdj : ∀ l : List (UID × NetworkAddress),
    List.Chain' (fun x y => x ≠ y) (dedupAdj l)
  | [] => List.chain'_nil
  | [a] => List.chain'_singleton a
  | a :: b :: rest => by
    by_cases h : a = b
    · simp only [dedupAdj, if_pos h]
      exact chain'_ne_dedupAdj (b :: rest)
    · simp only [dedupAdj, if_neg h]
      rw [List.chain'_cons']
      refine ⟨?_, chain'_ne_dedupAdj (b :: rest)⟩
      intro y hy
      rw [dedupAdj_head? rest b, Option.mem_def, Option.some.injEq] at hy
      subst hy
      exact h

theorem sorted_dedupAdj {l : List (UID × NetworkAddress)}
    (h : List.Sorted pairLe l) : List.Sorted pairLe (dedupAdj l) :=
  List.Pairwise.sublist (dedupAdj_sublist l) h

theorem chain'_and {α : Type} {R S : α → α → Prop} :
    ∀ {l : List α}, List.Chain' R l → List.Chain' S l →
      List.Chain' (fun a b => R a b ∧ S a b) l := by
  intro l
  induction l with
  | nil => intro _ _; exact List.chain'_nil
  | cons a l ih =>
    intro hR hS
    rw [List.chain'_cons'] at hR hS ⊢
    exact ⟨fun y hy => ⟨hR.1 y hy, hS.1 y hy⟩, ih hR.2 hS.2⟩

theorem noAdjDupFirst_iff : ∀ l : List (UID × NetworkAddress),
    noAdjDupFirst l = true ↔ List.Chain' (fun x y => x.1 ≠ y.1) l
  | [] => by simp [noAdjDupFirst]
  | [a] => by simp [noAdjDupFirst]
  | a :: b :: rest => by
    simp [noAdjDupFirst, noAdjDupFirst_iff (b :: rest), List.chain'_cons]

theorem nodup_dedupAdj_of_sorted {l : List (UID × NetworkAddress)}
    (hs : List.Sorted pairLe l) : (dedupAdj l).Nodup := by
  have hc : List.Chain' (fun x y : UID × NetworkAddress => pairLe x y ∧ x ≠ y)
      (dedupAdj l) :=
    chain'_and (sorted_dedupAdj hs).chain' (chain'_ne_dedupAdj l)
  have hlt : List.Chain'
      (fun x y : UID × NetworkAddress => x.1 < y.1 ∨ (x.1 = y.1 ∧ x.2 < y.2))
      (dedupAdj l) := by
    refine hc.imp ?_
    rintro x y ⟨hle, hne⟩
    rcases hle with h | ⟨h1, h2⟩
    · exact Or.inl h
    · refine Or.inr ⟨h1, lt_of_le_of_ne h2 ?_⟩
      intro h2'
      exact hne (Prod.ext h1 h2')
  haveI : IsTrans (UID × NetworkAddress)
      (fun x y => x.1 < y.1 ∨ (x.1 = y.1 ∧ x.2 < y.2)) := by
    refine ⟨fun x y z hxy hyz => ?_⟩
    rcases hxy with h | ⟨h1, h2⟩ <;> rcases hyz with g | ⟨g1, g2⟩
    · exact Or.inl (h.trans g)
    · exact Or.inl (g1 ▸ h)
    · exact Or.inl (h1 ▸ g)
    · exact Or.inr ⟨h1.trans g1, h2.trans g2⟩
  rw [List.chain'_iff_pairwise] at hlt
  refine hlt.imp ?_
  intro x y hxy hxy'
  subst hxy'
  rcases hxy with h | ⟨_, h⟩ <;> exact absurd h (lt_irrefl _)

theorem mem_allSharedLogs {c : LogSystemConfig} {p : UID × NetworkAddress} :
    p ∈ c.allSharedLogs ↔ p ∈ c.collectSharedLogs := by
  unfold LogSystemConfig.allSharedLogs uniquify
  rw [mem_dedupAdj, List.mem_insertionSort]

theorem sorted_allSharedLogs (c : LogSystemConfig) :
    List.Sorted pairLe c.allSharedLogs :=
  sorted_dedupAdj (List.sorted_insertionSort pairLe c.collectSharedLogs)

theorem sharedLogs_consistent {c : LogSystemConfig}
    (hok : c.sharedLogsAssertOk = true) :
    ∀ p ∈ c.allSharedLogs, ∀ q ∈ c.allSharedLogs, p.1 = q.1 → p.2 = q.2 := by
  intro p hp q hq hfst
  have hc : List.Chain' (fun x y : UID × NetworkAddress => pairLe x y ∧ x.1 ≠ y.1)
      c.allSharedLogs :=
    chain'_and (sorted_allSharedLogs c).chain'
      ((noAdjDupFirst_iff c.allSharedLogs).mp hok)
  have hlt : List.Chain' (fun x y : UID × NetworkAddress => x.1 < y.1)
      c.allSharedLogs := by
    refine hc.imp ?_
    rintro x y ⟨hle, hne⟩
    rcases hle with h | ⟨h1, _⟩
    · exact h
    · exact absurd h1 hne
  haveI : IsTrans (UID × NetworkAddress) (fun x y => x.1 < y.1) :=
    ⟨fun _ _ _ h g => h.trans g⟩
  rw [List.chain'_iff_pairwise] at hlt
  have hne : List.Pairwise (fun x y : UID × NetworkAddress => x.1 ≠ y.1)
      c.allSharedLogs :=
    hlt.imp fun h => Nat.ne_of_lt h
  by_cases hpq : p = q
  · rw [hpq]
  · exact absurd hfst (hne.forall (fun _ _ h => h.symm) hp hq hpq)

/-- C3: `allSharedLogs` returns the deduplicated (by exact pair equality)
union, over the live generation's groups and every historical generation's
groups, of the `(getSharedTLogID(), address())` pairs of all resolved servers;
when the `ASSERT_WE_THINK` consistency check passes, the result contains no
two entries with the same shared-log identity mapped to different addresses;
and whenever the input binds one shared-log identity to two distinct
addresses, that assertion signals the topology inconsistency (evaluates to
false) rather than letting the merge pass silently. -/
theorem C3_allSharedLogs :
    (∀ (c : LogSystemConfig) (p : UID × NetworkAddress),
      p ∈ c.allSharedLogs ↔
        ((∃ s ∈ c.tLogs, ∃ t ∈ s.tLogs, ∃ i, t.iface = some i ∧
            p = (i.sharedTLogID, i.address)) ∨
         (∃ o ∈ c.oldTLogs, ∃ s ∈ o.tLogs, ∃ t ∈ s.tLogs, ∃ i, t.iface = some i ∧
            p = (i.sharedTLogID, i.address)))) ∧
    (∀ c : LogSystemConfig, c.allSharedLogs.Nodup) ∧
    (∀ c : LogSystemConfig, c.sharedLogsAssertOk = true →
      ∀ p ∈ c.allSharedLogs, ∀ q ∈ c.allSharedLogs, p.1 = q.1 → p.2 = q.2) ∧
    (∀ (c : LogSystemConfig) (u : UID) (a1 a2 : NetworkAddress),
      (u, a1) ∈ c.collectSharedLogs → (u, a2) ∈ c.collectSharedLogs → a1 ≠ a2 →
      c.sharedLogsAssertOk = false) := by
  refine ⟨?_, ?_, fun c hok => sharedLogs_consistent hok, ?_⟩
  · intro c p
    rw [mem_allSharedLogs]
    unfold LogSystemConfig.collectSharedLogs
    simp [mem_sharedPairsOfSets, mem_sharedPairsOfOlds, mem_sharedPairsOf]
  · intro c
    exact nodup_dedupAdj_of_sorted
      (List.sorted_insertionSort pairLe c.collectSharedLogs)
  · intro c u a1 a2 h1 h2 hne
    cases hok : c.sharedLogsAssertOk with
    | false => rfl
    | true =>
      have := sharedLogs_consistent hok (u, a1) (mem_allSharedLogs.mpr h1)
        (u, a2) (mem_allSharedLogs.mpr h2) rfl
      exact absurd this hne

/-- Witness for C3 at a concrete input: two resolved servers share shared-log
identity `7` at addresses `1` and `2`, so the assertion signals the
inconsistency. -/
theorem C3_witness : sampleSharedConfig.sharedLogsAssertOk = false :=
  C3_allSharedLogs.2.2.2 sampleSharedConfig 7 1 2 (by decide) (by decide) (by decide)
